import Mathlib

/-!
Shallow embedding of the state-timeline reconstruction and metric code of a
team-performance analysis tool (TypeScript sources under
team-performance-analysis/scripts). Dates follow JavaScript semantics: a
date string is missing, unparsable, or parses to an integer millisecond
timestamp; the Date constructor never throws, an unparsable string yields
an Invalid Date object (numeric value NaN, and the object is truthy), and a
missing string yields null. Machine reals are modelled exactly: whole-day
counts as integers, averages and percentages as rationals.
-/

namespace Ado

/-- Milliseconds in one day, the divisor 1000 * 60 * 60 * 24 of the code. -/
def msPerDay : Int := 86400000

/-- Whole-day difference Math.floor of (t2 - t1) / msPerDay between two
valid millisecond timestamps; Int.fdiv rounds toward negative infinity
exactly as Math.floor does on the real quotient. -/
def daysBetween (t1 t2 : Int) : Int := (t2 - t1).fdiv msPerDay

/-- Raw date string as supplied to parseDate: absent or empty (falsy),
unparsable nonempty text, or text parsing to a millisecond timestamp. -/
inductive DateStr where
  | missing : DateStr
  | unparsable (s : String) : DateStr
  | parsed (ms : Int) : DateStr
deriving DecidableEq

/-- JavaScript Date object: either Invalid Date (NaN time value) or a valid
date holding a millisecond timestamp. -/
inductive JsDate where
  | invalid : JsDate
  | valid (ms : Int) : JsDate
deriving DecidableEq

/-- Function parseDate of utils/data-loader.ts lines 97-105: null for a
falsy input, otherwise the result of the Date constructor. The constructor
never throws, so the catch branch is dead and unparsable text yields an
Invalid Date object rather than null. -/
def parseDate : DateStr → Option JsDate
  | .missing => none
  | .unparsable _ => some .invalid
  | .parsed ms => some (.valid ms)

/-- JavaScript truthiness of an optional string: false for null or
undefined and for the empty string. -/
def strTruthy : Option String → Bool
  | none => false
  | some s => !s.isEmpty

/-- Old/new value pair of the System.State entry of an update field map. -/
structure StateChange where
  oldValue : Option String
  newValue : Option String
deriving DecidableEq

/-- One update event of a work item, restricted to the fields the timeline
builder reads: revision number, revised date, and the System.State entry. -/
structure Update where
  rev : Nat
  revisedDate : DateStr
  state : Option StateChange
deriving DecidableEq

/-- Truthy new state value of an update, as read by the optional chain on
fields, System.State and newValue. -/
def stateNewTruthy (u : Update) : Option String :=
  match u.state with
  | some ch =>
    match ch.newValue with
    | some s => if s.isEmpty then none else some s
    | none => none
  | none => none

/-- Initial-state scan of time-in-state.ts lines 107-118: the loop breaks at
the first update with rev = 1 and a truthy new state value, if any. -/
def findInitial : List Update → Option String
  | [] => none
  | u :: rest =>
    if u.rev = 1 then
      match stateNewTruthy u with
      | some s => some s
      | none => findInitial rest
    else findInitial rest

/-- Seed entry of the state timeline (time-in-state.ts lines 107-118): it is
pushed only when the rev-1 scan found a state and parseDate of the created
date returned a truthy (non-null) object. -/
def seedOf (createdDate : DateStr) (updates : List Update) : List (String × JsDate) :=
  match findInitial updates with
  | some s =>
    match parseDate createdDate with
    | some d => [(s, d)]
    | none => []
  | none => []

/-- Transition entry contributed by one update (time-in-state.ts lines
121-138): requires a state entry with truthy old and new values and a
truthy (non-null) parseDate result, which may be an Invalid Date. -/
def transitionOf (u : Update) : Option (String × JsDate) :=
  match u.state with
  | some ch =>
    if strTruthy ch.oldValue && strTruthy ch.newValue then
      match parseDate u.revisedDate with
      | some d => some (ch.newValue.getD "", d)
      | none => none
    else none
  | none => none

/-- All transition entries, in update order. -/
def transitionsOf (updates : List Update) : List (String × JsDate) :=
  updates.filterMap transitionOf

/-- State timeline built per work item by time-in-state.ts lines 100-138 and
by the identical logic of flow-efficiency.ts lines 118-157: the optional
seed entry followed by the transition entries. The updates list is the
per-item list already sorted by revision number. -/
def buildStateTimeline (createdDate : DateStr) (updates : List Update) : List (String × JsDate) :=
  seedOf createdDate updates ++ transitionsOf updates

/-- Millisecond timestamp of the revised date of an update, when parsed. -/
def revTime (u : Update) : Option Int :=
  match u.revisedDate with
  | .parsed t => some t
  | _ => none

/-- Boolean comparison of two JavaScript dates by timestamp; comparisons
involving an Invalid Date are false, as NaN comparisons are in JavaScript. -/
def jsDateLe : JsDate → JsDate → Bool
  | .valid a, .valid b => decide (a ≤ b)
  | _, _ => false

/-- A timeline has non-decreasing entry timestamps in the order produced. -/
def TimelineMono (tl : List (String × JsDate)) : Prop :=
  List.Chain' (fun a b => jsDateLe a.2 b.2 = true) tl

instance (tl : List (String × JsDate)) : Decidable (TimelineMono tl) := by
  unfold TimelineMono
  infer_instance

/-- Breakdown-map update of time-in-state.ts lines 161-164: add d days to
the entry of state s, treating a missing entry as zero. -/
def updBD (bd : String → Int) (s : String) (d : Int) : String → Int :=
  fun s' => if s' = s then bd s' + d else bd s'

/-- Pairwise interval loop of time-in-state.ts lines 149-178, on a timeline
whose timestamps are all valid: for each consecutive pair compute the
whole-day duration, skip it when negative or over 365, otherwise add it to
the per-state breakdown and to the running total. -/
def foldIntervals : List (String × Int) → (String → Int) → Int → ((String → Int) × Int)
  | (s, t1) :: (s2, t2) :: rest, bd, total =>
    let d := daysBetween t1 t2
    if d < 0 ∨ d > 365 then foldIntervals ((s2, t2) :: rest) bd total
    else foldIntervals ((s2, t2) :: rest) (updBD bd s d) (total + d)
  | _, bd, total => (bd, total)

/-- Interval folder of time-in-state.ts lines 149-196: the pairwise loop
followed by the trailing open interval of the last entry measured against
now, filtered by the same 0..365 day bound. -/
def foldTimeInState (tl : List (String × Int)) (now : Int) : (String → Int) × Int :=
  let r := foldIntervals tl (fun _ => 0) 0
  match tl.getLast? with
  | some (s, t) =>
    let d := daysBetween t now
    if 0 ≤ d ∧ d ≤ 365 then (updBD r.1 s d, r.2 + d) else r
  | none => r

/-- Consecutive-pair intervals of a timeline: for each adjacent pair, the
start state together with the whole-day duration to the next entry. -/
def pairIntervals : List (String × Int) → List (String × Int)
  | (s, t1) :: (s2, t2) :: rest => (s, daysBetween t1 t2) :: pairIntervals ((s2, t2) :: rest)
  | _ => []

/-- All intervals processed by the folder: the consecutive pairs plus the
trailing open interval of the last entry measured against now. -/
def intervalList (tl : List (String × Int)) (now : Int) : List (String × Int) :=
  pairIntervals tl ++
    (match tl.getLast? with
     | some (s, t) => [(s, daysBetween t now)]
     | none => [])

/-- Plausibility bound of the folder: a duration participates only when it
lies between 0 and 365 days inclusive. -/
def validDur (p : String × Int) : Bool :=
  decide (0 ≤ p.2) && decide (p.2 ≤ 365)

/-- Statistics record returned by calculateStats of utils/data-loader.ts. -/
structure Stats where
  avg : ℚ
  median : ℚ
  min : ℚ
  max : ℚ
  count : Nat
deriving DecidableEq

/-- Function calculateStats of utils/data-loader.ts lines 171-192: zeros for
an empty sample; otherwise the mean, the ascending-sorted sample element at
index floor(n / 2), the first and last of the sorted sample, and the count.
The JavaScript numeric-comparator sort is modelled by insertion sort, which
returns the same ascending list. -/
def calculateStats (values : List ℚ) : Stats :=
  if values.isEmpty then ⟨0, 0, 0, 0, 0⟩
  else
    let sorted := values.insertionSort (· ≤ ·)
    { avg := values.sum / values.length
      median := sorted.getD (values.length / 2) 0
      min := sorted.getD 0 0
      max := sorted.getD (sorted.length - 1) 0
      count := values.length }

/-- Active-state allowlist of flow-efficiency.ts line 81. -/
def activeStates : List String :=
  ["Active", "In Progress", "2 - Active", "Resolved", "3 - Resolved", "3.2 - QA in Progress"]

/-- Wait-state allowlist of flow-efficiency.ts line 82. -/
def waitStates : List String :=
  ["New", "To Do", "Blocked", "On Hold", "Ready for Test"]

/-- Pairwise loop of flow-efficiency.ts lines 168-188: for each consecutive
pair of timeline entries compute the whole-day duration, skip it when
negative or over 365, and otherwise add it to the active total when the
start state is in the active allowlist, to the wait total when it is in the
wait allowlist, and to the wait total as well for any other state. -/
def flowPairs : List (String × Int) → Int × Int → Int × Int
  | (s, t1) :: (s2, t2) :: rest, (a, w) =>
    let d := daysBetween t1 t2
    if d < 0 ∨ d > 365 then flowPairs ((s2, t2) :: rest) (a, w)
    else if s ∈ activeStates then flowPairs ((s2, t2) :: rest) (a + d, w)
    else if s ∈ waitStates then flowPairs ((s2, t2) :: rest) (a, w + d)
    else flowPairs ((s2, t2) :: rest) (a, w + d)
  | _, acc => acc

/-- Active and wait day totals of one item, flow-efficiency.ts lines
164-207: the pairwise loop followed by the trailing open interval of the
last entry measured against now, under the same bound and classification. -/
def flowTimes (tl : List (String × Int)) (now : Int) : Int × Int :=
  let r := flowPairs tl (0, 0)
  match tl.getLast? with
  | some (s, t) =>
    let d := daysBetween t now
    if 0 ≤ d ∧ d ≤ 365 then
      if s ∈ activeStates then (r.1 + d, r.2)
      else if s ∈ waitStates then (r.1, r.2 + d)
      else (r.1, r.2 + d)
    else r
  | none => r

/-- Efficiency percentage of flow-efficiency.ts lines 214-215: active time
over total time times 100 when the total is positive, else 0. -/
def efficiencyPct (a w : Int) : ℚ :=
  if a + w > 0 then (a : ℚ) / ((a : ℚ) + (w : ℚ)) * 100 else 0

/-- Sum of the plausible durations among a list of intervals. -/
def plausibleSum (ivs : List (String × Int)) : Int :=
  ((ivs.filter validDur).map Prod.snd).sum

/-- Sum of the plausible durations among a list of intervals restricted to
one start state. -/
def plausibleStateSum (ivs : List (String × Int)) (s : String) : Int :=
  ((ivs.filter (fun p => validDur p && decide (p.1 = s))).map Prod.snd).sum

/-- Sum of the plausible durations of the intervals whose start state is in
the active allowlist. -/
def activePairSum (ivs : List (String × Int)) : Int :=
  ((ivs.filter (fun p => validDur p && decide (p.1 ∈ activeStates))).map Prod.snd).sum

/-- Sum of the plausible durations of the intervals whose start state is
outside the active allowlist, covering both listed wait states and
unclassified states. -/
def waitPairSum (ivs : List (String × Int)) : Int :=
  ((ivs.filter (fun p => validDur p && !decide (p.1 ∈ activeStates))).map Prod.snd).sum

/-- Wait-day total stated from the folded interval list of one item. -/
def waitSumSpec (tl : List (String × Int)) (now : Int) : Int :=
  waitPairSum (intervalList tl now)

/-- Active-day total stated from the folded interval list of one item. -/
def activeSumSpec (tl : List (String × Int)) (now : Int) : Int :=
  activePairSum (intervalList tl now)

/-- Active ownership period of daily-wip.ts lines 83-90: a work item id, an
assignee, a start timestamp, and an optional end timestamp where null means
the item is still active. -/
structure ActivePeriod where
  workItemId : Int
  assignedTo : String
  startDate : Int
  endDate : Option Int
deriving DecidableEq

/-- Day-coverage test of daily-wip.ts lines 204-207: the day timestamp lies
between the period start and the period end, a missing end standing for
now. Both comparisons are inclusive. -/
def coversDay (d now : Int) (p : ActivePeriod) : Bool :=
  let pend := p.endDate.getD now
  decide (p.startDate ≤ d) && decide (d ≤ pend)

/-- Per-day per-member item set of daily-wip.ts lines 196-210: periods of
the member covering the day have their work item id inserted into a set,
so repeated ids collapse. The JavaScript Set is modelled by a Finset. -/
def wipSetForDay (periods : List ActivePeriod) (m : String) (d now : Int) : Finset Int :=
  periods.foldl
    (fun s p => if p.assignedTo = m ∧ coversDay d now p then insert p.workItemId s else s) ∅

/-- Daily WIP count reported for one member and one day: the size of the
per-day set. -/
def wipCountCode (periods : List ActivePeriod) (m : String) (d now : Int) : Nat :=
  (wipSetForDay periods m d now).card

/-- Periods of one member covering one day, in list order. -/
def coveringPeriods (periods : List ActivePeriod) (m : String) (d now : Int) : List ActivePeriod :=
  periods.filter (fun p => decide (p.assignedTo = m) && coversDay d now p)

/-- Number of distinct work items among the covering periods of a member. -/
def distinctCoveringItems (periods : List ActivePeriod) (m : String) (d now : Int) : Nat :=
  ((coveringPeriods periods m d now).map (fun p => p.workItemId)).toFinset.card

/-- Calendar days enumerated by the snapshot loop of daily-wip.ts line 192:
one timestamp per day from the range start, stepping a whole day while not
past the range end. -/
def wipDays (start endT : Int) : List Int :=
  if start ≤ endT then
    (List.range ((endT - start).toNat / msPerDay.toNat + 1)).map
      (fun i => start + (i : Int) * msPerDay)
  else []

/-- Split of a character list at every occurrence of a character, matching
the JavaScript String split with a one-character separator: adjacent,
leading and trailing separators produce empty segments. -/
def splitOnChar (c : Char) : List Char → List (List Char)
  | [] => [[]]
  | x :: xs =>
    let r := splitOnChar c xs
    if x = c then [] :: r
    else
      match r with
      | h :: t => (x :: h) :: t
      | [] => [[x]]

/-- JavaScript split of a string at every occurrence of one character. -/
def splitStringOn (s : String) (c : Char) : List String :=
  (splitOnChar c s.data).map String.mk

/-- Sprint-name extraction of sprint-analysis.ts lines 61-67: falsy paths
give No Sprint, otherwise the last backslash-separated segment, or Unknown
when that segment is falsy. -/
def extractSprintName : Option String → String
  | none => "No Sprint"
  | some s =>
    if s.isEmpty then "No Sprint"
    else
      let last := (splitStringOn s '\\').getLastD ""
      if last.isEmpty then "Unknown" else last

/-- Old/new value pair of the System.IterationPath entry of an update. -/
structure IterChange where
  oldValue : Option String
  newValue : Option String
deriving DecidableEq

/-- One update event as read by the sprint metric: revision number, revised
date, and the System.IterationPath entry. -/
structure IterUpdate where
  rev : Nat
  revisedDate : DateStr
  iter : Option IterChange
deriving DecidableEq

/-- First-sprint-event scan of sprint-analysis.ts lines 132-145: the loop
breaks at the first update holding an iteration-path entry whose truthy new
value extracts to the sprint name of the item. -/
def findFirstSprintEvent (sprintName : String) : List IterUpdate → Option IterUpdate
  | [] => none
  | u :: rest =>
    match u.iter with
    | some ch =>
      if strTruthy ch.newValue ∧ extractSprintName ch.newValue = sprintName then some u
      else findFirstSprintEvent sprintName rest
    | none => findFirstSprintEvent sprintName rest

/-- Unplanned test of sprint-analysis.ts lines 150-160 given the two parsed
dates: both must be truthy Date objects, and the whole-day gap must exceed
3; a gap involving an Invalid Date is NaN and NaN compares false, giving
planned. -/
def classifyUnplanned (createdDate firstSprintDate : Option JsDate) : Bool :=
  match firstSprintDate, createdDate with
  | some fd, some cd =>
    match fd, cd with
    | .valid f, .valid c => decide (daysBetween c f > 3)
    | _, _ => false
  | _, _ => false

/-- Planned versus added-mid-sprint classification of one item: the first
matching sprint event is looked up, its revised date parsed, and the gap
against the parsed creation date tested. -/
def itemUnplanned (sprintName : String) (createdRaw : DateStr) (updates : List IterUpdate) : Bool :=
  classifyUnplanned (parseDate createdRaw)
    ((findFirstSprintEvent sprintName updates).bind (fun u => parseDate u.revisedDate))

/-- Three-valued velocity trend of the sprint metric. -/
inductive Trend where
  | increasing : Trend
  | stable : Trend
  | decreasing : Trend
deriving DecidableEq

/-- Velocity-trend step of sprint-analysis.ts lines 308-320 on the ordered
list of per-sprint velocities: stable below four sprints; otherwise the
list splits at floor(n / 2) and the half means are compared against the
first-half mean scaled by 1.1 and 0.9. -/
def velocityTrend (velocities : List ℚ) : Trend :=
  if velocities.length ≥ 4 then
    let midpoint := velocities.length / 2
    let firstHalfAvg := (velocities.take midpoint).sum / (midpoint : ℚ)
    let secondHalfAvg := (velocities.drop midpoint).sum / ((velocities.length - midpoint : ℕ) : ℚ)
    if secondHalfAvg > firstHalfAvg * 1.1 then .increasing
    else if secondHalfAvg < firstHalfAvg * 0.9 then .decreasing
    else .stable
  else .stable

/-- Mean of a list of rationals, sum over length. -/
def listAvg (l : List ℚ) : ℚ := l.sum / (l.length : ℚ)

/-- Assigned-person field of a work item: absent, a bare display-name
string, or a structured object with an optional display name. -/
inductive AssignedTo where
  | absent : AssignedTo
  | name (s : String) : AssignedTo
  | obj (displayName : Option String) : AssignedTo
deriving DecidableEq

/-- Function getAssignedToName of utils/data-loader.ts lines 84-92: falsy
values (absence and the empty string) give Unassigned, a bare string gives
itself, and a structured value gives its display name or Unknown when that
is falsy. -/
def getAssignedToName : AssignedTo → String
  | .absent => "Unassigned"
  | .name s => if s.isEmpty then "Unassigned" else s
  | .obj d =>
    match d with
    | some s => if s.isEmpty then "Unknown" else s
    | none => "Unknown"

/-- Completed-state allowlist of the snapshot cycle-time metric. -/
def completedStates : List String := ["Done", "5 - Done", "Closed"]

/-- Function getMonth of utils/data-loader.ts lines 110-113: null for a
falsy input, otherwise the first seven characters of the raw date string,
its YYYY-MM prefix. The JavaScript substring is modelled over the
character list. -/
def getMonth (dateStr : Option String) : Option String :=
  match dateStr with
  | none => none
  | some s => if s.isEmpty then none else some (String.mk (s.data.take 7))

/-- Work item snapshot as read by the snapshot cycle-time metric: current
state, the created-date field both as raw text (fed to getMonth) and as
its parse classification (fed to parseDate; by convention createdRaw is
none or empty exactly when createdDate is missing, both standing for one
falsy System.CreatedDate field), the two closed-date fields, assignee, and
type. -/
structure CTItem where
  state : Option String
  createdDate : DateStr
  createdRaw : Option String
  closedDate1 : DateStr
  closedDate2 : DateStr
  assignedTo : AssignedTo
  workItemType : Option String
deriving DecidableEq

/-- Closed-date fallback of the cycle-time metric: System.ClosedDate when
truthy, else Microsoft.VSTS.Common.ClosedDate. -/
def ctClosedRaw (it : CTItem) : DateStr :=
  match it.closedDate1 with
  | .missing => it.closedDate2
  | d => d

/-- JavaScript string-or-default: the fallback value when the string is
absent or empty. -/
def jsOrDefault (s : Option String) (dflt : String) : String :=
  match s with
  | some v => if v.isEmpty then dflt else v
  | none => dflt

/-- Per-item cycle-time sample of analyzeCycleTime: none when the item is
skipped (state outside the completed allowlist, or a falsy raw date);
otherwise the pushed value, which is the floored whole-day difference for
two valid dates and NaN (inner none) when a parsed Date is invalid. No
plausibility bound is applied to the value. -/
def itemCycleSample (it : CTItem) : Option (Option Int) :=
  match it.state with
  | some s =>
    if s ∈ completedStates then
      if it.createdDate = .missing ∨ ctClosedRaw it = .missing then none
      else
        match parseDate it.createdDate, parseDate (ctClosedRaw it) with
        | some (.valid a), some (.valid b) => some (some (daysBetween a b))
        | some _, some _ => some none
        | _, _ => none
    else none
  | none => none

/-- Per-type cycle-time samples of analyzeCycleTime: every non-skipped item
contributes its value to the list of its work item type, Unknown when the
type field is falsy. -/
def cycleTimesByType (items : List CTItem) (ty : String) : List (Option Int) :=
  items.filterMap
    (fun it =>
      match itemCycleSample it with
      | some v => if jsOrDefault it.workItemType "Unknown" = ty then some v else none
      | none => none)

/-- Per-month cycle-time samples of analyzeCycleTime: a non-skipped item
contributes its value to the list keyed by the YYYY-MM prefix of its raw
created-date string, when getMonth yields one. -/
def cycleTimesByMonth (items : List CTItem) (mo : String) : List (Option Int) :=
  items.filterMap
    (fun it =>
      match itemCycleSample it with
      | some v =>
        match getMonth it.createdRaw with
        | some m => if m = mo then some v else none
        | none => none
      | none => none)

/-- Per-member cycle-time samples of analyzeCycleTime: a non-skipped item
contributes its value to the list of its normalized assignee when that
assignee is on the roster. -/
def cycleTimesByMember (items : List CTItem) (roster : List String) (m : String) :
    List (Option Int) :=
  items.filterMap
    (fun it =>
      match itemCycleSample it with
      | some v =>
        if getAssignedToName it.assignedTo ∈ roster ∧ getAssignedToName it.assignedTo = m
        then some v else none
      | none => none)

/-! Concrete inputs used by counterexamples and witnesses. -/

/-- Updates of an item whose rev-2 transition has a missing revised date. -/
def c3UpdatesMissing : List Update :=
  [⟨1, .parsed 0, some ⟨none, some "New"⟩⟩,
   ⟨2, .missing, some ⟨some "New", some "Active"⟩⟩]

/-- Updates of an item whose rev-2 transition has an unparsable revised
date. -/
def c3UpdatesUnparsable : List Update :=
  [⟨1, .parsed 0, some ⟨none, some "New"⟩⟩,
   ⟨2, .unparsable "not-a-date", some ⟨some "New", some "Active"⟩⟩]

/-- Updates of an item sorted by revision with non-decreasing timestamps:
day 0 and day 5. -/
def c4Updates : List Update :=
  [⟨1, .parsed 0, some ⟨none, some "New"⟩⟩,
   ⟨2, .parsed 432000000, some ⟨some "New", some "Active"⟩⟩]

/-- Updates of an item with a transition event but no rev-1 state event. -/
def c5Updates : List Update :=
  [⟨2, .parsed 432000000, some ⟨some "New", some "Active"⟩⟩]

/-- Timeline of one item: wait state at day 0, active state from day 2. -/
def c6Timeline : List (String × Int) := [("New", 0), ("Active", 172800000)]

/-- Two active periods of the same member and the same work item meeting at
day 4: the second reopens at the instant the first closes. -/
def c7SameItemPeriods : List ActivePeriod :=
  [⟨1, "A", 0, some 345600000⟩, ⟨1, "A", 345600000, none⟩]

/-- Two active periods of the same member on distinct items: item 1 over
days 0 to 9 and item 2 from day 3 with no recorded end. -/
def c7TwoItemPeriods : List ActivePeriod :=
  [⟨1, "A", 0, some 777600000⟩, ⟨2, "A", 259200000, none⟩]

/-- One iteration-path update moving an item into Sprint 5 at day 9. -/
def c8Updates : List IterUpdate :=
  [⟨2, .parsed 777600000, some ⟨some "Proj\\Backlog", some "Proj\\Sprint 5"⟩⟩]

/-- Completed snapshot item closed seven days before it was created. -/
def cItemNeg : CTItem :=
  ⟨some "Closed", .parsed 864000000, some "1970-01-11T00:00:00Z", .parsed 259200000,
    .missing, .name "A", some "Bug"⟩

/-- Completed snapshot item closed 400 days after it was created. -/
def cItemLong : CTItem :=
  ⟨some "Closed", .parsed 0, some "1970-01-01T00:00:00Z", .parsed 34560000000,
    .missing, .name "A", some "Bug"⟩

/-- The two-item snapshot list of the cycle-time witness. -/
def c10Items : List CTItem := [cItemNeg, cItemLong]

/-! Theorems. -/

/-- C2: for every non-empty sample, calculateStats returns as median the
element at index floor(n / 2) of the ascending-sorted sample, stated
against any sorted permutation of the input. -/
theorem calculateStats_median (values l' : List ℚ) (hne : values ≠ [])
    (hp : values.Perm l') (hs : l'.Sorted (· ≤ ·)) :
    (calculateStats values).median = l'.getD (values.length / 2) 0 := by
  have hsort : values.insertionSort (· ≤ ·) = l' :=
    List.eq_of_perm_of_sorted ((List.perm_insertionSort _ values).trans hp)
      (List.sorted_insertionSort _ values) hs
  have hemp : values.isEmpty = false := by
    simpa using hne
  simp [calculateStats, hemp, hsort]

/-- Witness for C2: the even-count sample 1, 2, 3, 4 gets median 3, the
upper of the two middle values, not 2.5. -/
theorem calculateStats_median_witness :
    (calculateStats [1, 2, 3, 4]).median = 3 := by
  have h := calculateStats_median [1, 2, 3, 4] [1, 2, 3, 4] (by decide)
    (List.Perm.refl _) (by decide)
  simpa using h

/-- C3 evidence: a revision with a missing revised date is skipped, but a
revision with an unparsable revised date is appended to the timeline with
an Invalid Date, because the Date constructor never throws and the Invalid
Date object is truthy; the claim and the stated edge-case policy say such a
revision is skipped. -/
theorem timeline_unparsable_appended :
    buildStateTimeline (.parsed 0) c3UpdatesMissing = [("New", JsDate.valid 0)] ∧
    buildStateTimeline (.parsed 0) c3UpdatesUnparsable =
      [("New", JsDate.valid 0), ("Active", JsDate.invalid)] := by
  exact ⟨rfl, rfl⟩

/-- C5 counterexample: an item with updates but no rev-1 state event gets no
seed entry at all; at this input the builder returns only the transition
entry at day 5, and no entry carries the creation timestamp day 0, although
the claim says an initial entry with the snapshot state and the creation
timestamp is seeded. -/
theorem timeline_no_snapshot_seed_cex :
    findInitial c5Updates = none ∧
    buildStateTimeline (.parsed 0) c5Updates = [("Active", JsDate.valid 432000000)] ∧
    ∀ e ∈ buildStateTimeline (.parsed 0) c5Updates, e.2 ≠ JsDate.valid 0 := by
  decide

/-- C5 amended: when no update has revision 1 with a truthy state new
value, the builder seeds nothing and the timeline consists exactly of the
transition entries, each coming from an update of the item; the snapshot
state is never consulted. -/
theorem timeline_no_seed_without_rev1 (createdDate : DateStr) (updates : List Update)
    (h : ∀ u ∈ updates, u.rev = 1 → stateNewTruthy u = none) :
    buildStateTimeline createdDate updates = transitionsOf updates ∧
    ∀ e ∈ transitionsOf updates, ∃ u ∈ updates, transitionOf u = some e := by
  constructor
  · have hfi : findInitial updates = none := by
      induction updates with
      | nil => rfl
      | cons u rest ih =>
        have hrest : findInitial rest = none :=
          ih (fun v hv hr => h v (List.mem_cons_of_mem _ hv) hr)
        by_cases hr : u.rev = 1
        · have hu : stateNewTruthy u = none := h u (List.mem_cons_self u rest) hr
          simp [findInitial, hr, hu, hrest]
        · simp [findInitial, hr, hrest]
    simp [buildStateTimeline, seedOf, hfi]
  · intro e he
    rcases List.mem_filterMap.1 he with ⟨u, hu, heq⟩
    exact ⟨u, hu, heq⟩

/-- Witness for C5 amended: at the concrete rev-2-only input the timeline
equals the transition entries. -/
theorem timeline_no_seed_without_rev1_witness :
    buildStateTimeline (.parsed 0) c5Updates = transitionsOf c5Updates :=
  (timeline_no_seed_without_rev1 (.parsed 0) c5Updates (by decide)).1

/-- C8: an item is classified added-mid-sprint exactly when the first
update moving it into its sprint has a parsed timestamp more than 3 whole
days after the parsed creation date; with no such event or no creation
date the item defaults to planned. -/
theorem sprint_unplanned_rule (sprintName : String) (createdRaw : DateStr)
    (updates : List IterUpdate) :
    (∀ u tf tc, findFirstSprintEvent sprintName updates = some u →
      u.revisedDate = .parsed tf → createdRaw = .parsed tc →
      (itemUnplanned sprintName createdRaw updates = true ↔ 3 < daysBetween tc tf)) ∧
    (findFirstSprintEvent sprintName updates = none →
      itemUnplanned sprintName createdRaw updates = false) ∧
    (createdRaw = .missing → itemUnplanned sprintName createdRaw updates = false) := by
  refine ⟨?_, ?_, ?_⟩
  · intro u tf tc hf hr hc
    unfold itemUnplanned
    rw [hf, hc, Option.some_bind, hr]
    simp [parseDate, classifyUnplanned]
  · intro hf
    unfold itemUnplanned
    rw [hf, Option.none_bind]
    cases parseDate createdRaw <;> rfl
  · intro hc
    unfold itemUnplanned
    rw [hc]
    cases (findFirstSprintEvent sprintName updates).bind (fun u => parseDate u.revisedDate) <;>
      rfl

/-- Witness for C8: creation at day 0 and a sprint move at day 9 give a
9-day gap, over 3, so the item is classified unplanned. -/
theorem sprint_unplanned_rule_witness :
    itemUnplanned "Sprint 5" (.parsed 0) c8Updates = true := by
  have h := (sprint_unplanned_rule "Sprint 5" (.parsed 0) c8Updates).1
    ⟨2, .parsed 777600000, some ⟨some "Proj\\Backlog", some "Proj\\Sprint 5"⟩⟩ 777600000 0
    (by decide) rfl rfl
  exact h.mpr (by decide)

/-- C10: the snapshot cycle-time metric applies no plausibility bound: any
listed item in a completed state with parsed created and closed dates
contributes its floored whole-day difference to the per-type samples, to
the per-month samples under the YYYY-MM prefix of its raw created string,
and to the per-member samples when its assignee is on the roster, whatever
the value, negative or over 365 included. -/
theorem cycleTime_no_bound (items : List CTItem) (roster : List String) (it : CTItem)
    (s : String) (a b : Int)
    (hmem : it ∈ items) (hs : it.state = some s) (hcs : s ∈ completedStates)
    (hc : it.createdDate = .parsed a) (hcl : ctClosedRaw it = .parsed b) :
    some (daysBetween a b) ∈ cycleTimesByType items (jsOrDefault it.workItemType "Unknown") ∧
    (∀ mo, getMonth it.createdRaw = some mo →
      some (daysBetween a b) ∈ cycleTimesByMonth items mo) ∧
    (getAssignedToName it.assignedTo ∈ roster →
      some (daysBetween a b) ∈
        cycleTimesByMember items roster (getAssignedToName it.assignedTo)) := by
  have hsample : itemCycleSample it = some (some (daysBetween a b)) := by
    simp [itemCycleSample, hs, hcs, hc, hcl, parseDate]
  refine ⟨?_, ?_, ?_⟩
  · exact List.mem_filterMap.2 ⟨it, hmem, by simp [hsample]⟩
  · intro mo hmo
    exact List.mem_filterMap.2 ⟨it, hmem, by simp [cycleTimesByMonth, hsample, hmo]⟩
  · intro hroster
    exact List.mem_filterMap.2 ⟨it, hmem, by simp [hsample, hroster]⟩

/-- Witness for C10: a negative cycle time of minus 7 days and an oversized
one of 400 days both land in the per-type, per-month and per-member
samples. -/
theorem cycleTime_no_bound_witness :
    some (-7 : Int) ∈ cycleTimesByType c10Items "Bug" ∧
    some (-7 : Int) ∈ cycleTimesByMonth c10Items "1970-01" ∧
    some (400 : Int) ∈ cycleTimesByMember c10Items ["A"] "A" := by
  have h1 := cycleTime_no_bound c10Items ["A"] cItemNeg "Closed" 864000000 259200000
    (by decide) rfl (by decide) rfl rfl
  have h2 := cycleTime_no_bound c10Items ["A"] cItemLong "Closed" 0 34560000000
    (by decide) rfl (by decide) rfl rfl
  refine ⟨?_, ?_, ?_⟩
  · have hv : daysBetween 864000000 259200000 = -7 := by decide
    have := h1.1
    rw [hv] at this
    simpa using this
  · have hv : daysBetween 864000000 259200000 = -7 := by decide
    have := h1.2.1 "1970-01" (by decide)
    rw [hv] at this
    simpa using this
  · have hv : daysBetween 0 34560000000 = 400 := by decide
    have := (h2.2.2 (by decide))
    rw [hv] at this
    simpa using this

/-- Plausible sums distribute over list append. -/
theorem plausibleSum_append (xs ys : List (String × Int)) :
    plausibleSum (xs ++ ys) = plausibleSum xs + plausibleSum ys := by
  simp [plausibleSum, List.filter_append]

/-- Per-state plausible sums distribute over list append. -/
theorem plausibleStateSum_append (xs ys : List (String × Int)) (s : String) :
    plausibleStateSum (xs ++ ys) s = plausibleStateSum xs s + plausibleStateSum ys s := by
  simp [plausibleStateSum, List.filter_append]

/-- Plausible sum of a single interval. -/
theorem plausibleSum_single (x : String × Int) :
    plausibleSum [x] = if validDur x then x.2 else 0 := by
  simp only [plausibleSum, List.filter_singleton]
  cases h : validDur x <;> simp [h]

/-- Per-state plausible sum of a single interval. -/
theorem plausibleStateSum_single (x : String × Int) (s : String) :
    plausibleStateSum [x] s = if validDur x && decide (x.1 = s) then x.2 else 0 := by
  simp only [plausibleStateSum, List.filter_singleton]
  cases h : validDur x && decide (x.1 = s) <;> simp [h]

/-- Accumulator characterization of the pairwise interval loop: the running
total grows by the plausible-duration sum of the consecutive-pair
intervals, and each state entry of the breakdown grows by the plausible
sum of its own intervals. -/
theorem foldIntervals_spec (l : List (String × Int)) (bd : String → Int) (total : Int) :
    (foldIntervals l bd total).2 = total + plausibleSum (pairIntervals l) ∧
    ∀ s, (foldIntervals l bd total).1 s = bd s + plausibleStateSum (pairIntervals l) s := by
  induction l generalizing bd total with
  | nil => simp [foldIntervals, pairIntervals, plausibleSum, plausibleStateSum]
  | cons e rest ih =>
    cases rest with
    | nil => simp [foldIntervals, pairIntervals, plausibleSum, plausibleStateSum]
    | cons e2 rest2 =>
      obtain ⟨s1, t1⟩ := e
      obtain ⟨s2, t2⟩ := e2
      have hpair : pairIntervals ((s1, t1) :: (s2, t2) :: rest2) =
          (s1, daysBetween t1 t2) :: pairIntervals ((s2, t2) :: rest2) := rfl
      by_cases hd : daysBetween t1 t2 < 0 ∨ daysBetween t1 t2 > 365
      · have hfold : foldIntervals ((s1, t1) :: (s2, t2) :: rest2) bd total =
            foldIntervals ((s2, t2) :: rest2) bd total := by
          simp [foldIntervals, hd]
        have hv : validDur (s1, daysBetween t1 t2) = false := by
          simp only [validDur, Bool.and_eq_false_iff, decide_eq_false_iff_not, not_le]
          omega
        obtain ⟨ih2, ih1⟩ := ih bd total
        rw [hfold, hpair]
        refine ⟨?_, fun s => ?_⟩
        · rw [ih2]
          congr 1
          simp [plausibleSum, List.filter_cons, hv]
        · rw [ih1 s]
          congr 1
          simp [plausibleStateSum, List.filter_cons, hv]
      · have hfold : foldIntervals ((s1, t1) :: (s2, t2) :: rest2) bd total =
            foldIntervals ((s2, t2) :: rest2) (updBD bd s1 (daysBetween t1 t2))
              (total + daysBetween t1 t2) := by
          simp [foldIntervals, hd]
        have hv : validDur (s1, daysBetween t1 t2) = true := by
          simp only [validDur, Bool.and_eq_true, decide_eq_true_eq]
          omega
        obtain ⟨ih2, ih1⟩ :=
          ih (updBD bd s1 (daysBetween t1 t2)) (total + daysBetween t1 t2)
        rw [hfold, hpair]
        refine ⟨?_, fun s => ?_⟩
        · rw [ih2]
          simp [plausibleSum, List.filter_cons, hv]
          ring
        · rw [ih1 s]
          by_cases hss : s1 = s
          · subst hss
            simp [plausibleStateSum, List.filter_cons, hv, updBD]
            ring
          · simp [plausibleStateSum, List.filter_cons, hv, updBD, hss, Ne.symm hss]

/-- C1: the interval folder adds the whole-day duration of each interval,
the trailing open one against now included, to the per-state totals and to
the total cycle time exactly when it lies between 0 and 365 days; the
total and every per-state total equal the plausibility-filtered sums over
the interval list, so an interval whose duration is negative or over 365,
such as a revision timestamped 400 days after the prior entry, contributes
nothing. -/
theorem interval_fold_plausibility (tl : List (String × Int)) (now : Int) :
    (foldTimeInState tl now).2 = plausibleSum (intervalList tl now) ∧
    ∀ s, (foldTimeInState tl now).1 s = plausibleStateSum (intervalList tl now) s := by
  obtain ⟨h2, h1⟩ := foldIntervals_spec tl (fun _ => 0) 0
  cases hlast : tl.getLast? with
  | none =>
    have hfold : foldTimeInState tl now = foldIntervals tl (fun _ => 0) 0 := by
      unfold foldTimeInState
      rw [hlast]
    have hint : intervalList tl now = pairIntervals tl := by
      unfold intervalList
      rw [hlast]
      simp
    rw [hfold, hint]
    refine ⟨by simpa using h2, fun s => by simpa using h1 s⟩
  | some e =>
    obtain ⟨s0, t0⟩ := e
    have hint : intervalList tl now = pairIntervals tl ++ [(s0, daysBetween t0 now)] := by
      unfold intervalList
      rw [hlast]
    by_cases hd : 0 ≤ daysBetween t0 now ∧ daysBetween t0 now ≤ 365
    · have hfold : foldTimeInState tl now =
          (updBD (foldIntervals tl (fun _ => 0) 0).1 s0 (daysBetween t0 now),
            (foldIntervals tl (fun _ => 0) 0).2 + daysBetween t0 now) := by
        unfold foldTimeInState
        rw [hlast]
        simp [hd]
      have hv : validDur (s0, daysBetween t0 now) = true := by
        simp only [validDur, Bool.and_eq_true, decide_eq_true_eq]
        omega
      rw [hfold, hint]
      refine ⟨?_, fun s => ?_⟩
      · rw [plausibleSum_append, plausibleSum_single, if_pos hv]
        rw [h2]
        ring
      · rw [plausibleStateSum_append, plausibleStateSum_single]
        dsimp only
        by_cases hss : s = s0
        · subst hss
          rw [show updBD (foldIntervals tl (fun _ => 0) 0).1 s (daysBetween t0 now) s =
                (foldIntervals tl (fun _ => 0) 0).1 s + daysBetween t0 now from by
              simp [updBD]]
          rw [h1 s, if_pos (by simp [hv])]
          ring
        · rw [show updBD (foldIntervals tl (fun _ => 0) 0).1 s0 (daysBetween t0 now) s =
                (foldIntervals tl (fun _ => 0) 0).1 s from by simp [updBD, hss]]
          rw [h1 s, if_neg (by
            simp only [Bool.and_eq_true, decide_eq_true_eq]
            rintro ⟨-, hcontra⟩
            exact hss hcontra.symm)]
          simp
    · have hfold : foldTimeInState tl now = foldIntervals tl (fun _ => 0) 0 := by
        unfold foldTimeInState
        rw [hlast]
        simp [hd]
      have hv : validDur (s0, daysBetween t0 now) = false := by
        simp only [validDur, Bool.and_eq_false_iff, decide_eq_false_iff_not, not_le]
        omega
      rw [hfold, hint]
      refine ⟨?_, fun s => ?_⟩
      · rw [plausibleSum_append, plausibleSum_single, if_neg (by simp [hv])]
        simpa using h2
      · rw [plausibleStateSum_append, plausibleStateSum_single, if_neg (by simp [hv])]
        simpa using h1 s

/-- Active plausible sums distribute over list append. -/
theorem activePairSum_append (xs ys : List (String × Int)) :
    activePairSum (xs ++ ys) = activePairSum xs + activePairSum ys := by
  simp [activePairSum, List.filter_append]

/-- Wait plausible sums distribute over list append. -/
theorem waitPairSum_append (xs ys : List (String × Int)) :
    waitPairSum (xs ++ ys) = waitPairSum xs + waitPairSum ys := by
  simp [waitPairSum, List.filter_append]

/-- Active plausible sum of a single interval. -/
theorem activePairSum_single (x : String × Int) :
    activePairSum [x] = if validDur x && decide (x.1 ∈ activeStates) then x.2 else 0 := by
  simp only [activePairSum, List.filter_singleton]
  cases h : validDur x && decide (x.1 ∈ activeStates) <;> simp [h]

/-- Wait plausible sum of a single interval. -/
theorem waitPairSum_single (x : String × Int) :
    waitPairSum [x] = if validDur x && !decide (x.1 ∈ activeStates) then x.2 else 0 := by
  simp only [waitPairSum, List.filter_singleton]
  cases h : validDur x && !decide (x.1 ∈ activeStates) <;> simp [h]

/-- The active plausible sum is non-negative. -/
theorem activePairSum_nonneg (ivs : List (String × Int)) : 0 ≤ activePairSum ivs := by
  apply List.sum_nonneg
  intro x hx
  rcases List.mem_map.1 hx with ⟨p, hp, rfl⟩
  have hval := (List.mem_filter.1 hp).2
  simp only [validDur, Bool.and_eq_true, decide_eq_true_eq] at hval
  exact hval.1.1

/-- The wait plausible sum is non-negative. -/
theorem waitPairSum_nonneg (ivs : List (String × Int)) : 0 ≤ waitPairSum ivs := by
  apply List.sum_nonneg
  intro x hx
  rcases List.mem_map.1 hx with ⟨p, hp, rfl⟩
  have hval := (List.mem_filter.1 hp).2
  simp only [validDur, Bool.and_eq_true, decide_eq_true_eq] at hval
  exact hval.1.1

/-- Accumulator characterization of the flow pairwise loop: the active
total grows by the active plausible sum of the consecutive-pair intervals
and the wait total by the wait plausible sum, which covers listed wait
states and unclassified states alike. -/
theorem flowPairs_spec (l : List (String × Int)) (a w : Int) :
    (flowPairs l (a, w)).1 = a + activePairSum (pairIntervals l) ∧
    (flowPairs l (a, w)).2 = w + waitPairSum (pairIntervals l) := by
  induction l generalizing a w with
  | nil => simp [flowPairs, pairIntervals, activePairSum, waitPairSum]
  | cons e rest ih =>
    cases rest with
    | nil => simp [flowPairs, pairIntervals, activePairSum, waitPairSum]
    | cons e2 rest2 =>
      obtain ⟨s1, t1⟩ := e
      obtain ⟨s2, t2⟩ := e2
      have hpair : pairIntervals ((s1, t1) :: (s2, t2) :: rest2) =
          (s1, daysBetween t1 t2) :: pairIntervals ((s2, t2) :: rest2) := rfl
      by_cases hd : daysBetween t1 t2 < 0 ∨ daysBetween t1 t2 > 365
      · have hv : validDur (s1, daysBetween t1 t2) = false := by
          simp only [validDur, Bool.and_eq_false_iff, decide_eq_false_iff_not, not_le]
          omega
        have hfold : flowPairs ((s1, t1) :: (s2, t2) :: rest2) (a, w) =
            flowPairs ((s2, t2) :: rest2) (a, w) := by
          simp [flowPairs, hd]
        obtain ⟨ih1, ih2⟩ := ih a w
        rw [hfold, hpair]
        refine ⟨?_, ?_⟩
        · rw [ih1]
          congr 1
          simp [activePairSum, List.filter_cons, hv]
        · rw [ih2]
          congr 1
          simp [waitPairSum, List.filter_cons, hv]
      · have hv : validDur (s1, daysBetween t1 t2) = true := by
          simp only [validDur, Bool.and_eq_true, decide_eq_true_eq]
          omega
        by_cases hact : s1 ∈ activeStates
        · have hfold : flowPairs ((s1, t1) :: (s2, t2) :: rest2) (a, w) =
              flowPairs ((s2, t2) :: rest2) (a + daysBetween t1 t2, w) := by
            simp [flowPairs, hd, hact]
          obtain ⟨ih1, ih2⟩ := ih (a + daysBetween t1 t2) w
          rw [hfold, hpair]
          refine ⟨?_, ?_⟩
          · rw [ih1]
            simp [activePairSum, List.filter_cons, hv, hact]
            ring
          · rw [ih2]
            congr 1
            simp [waitPairSum, List.filter_cons, hv, hact]
        · have hfold : flowPairs ((s1, t1) :: (s2, t2) :: rest2) (a, w) =
              flowPairs ((s2, t2) :: rest2) (a, w + daysBetween t1 t2) := by
            by_cases hw : s1 ∈ waitStates <;> simp [flowPairs, hd, hact, hw]
          obtain ⟨ih1, ih2⟩ := ih a (w + daysBetween t1 t2)
          rw [hfold, hpair]
          refine ⟨?_, ?_⟩
          · rw [ih1]
            congr 1
            simp [activePairSum, List.filter_cons, hv, hact]
          · rw [ih2]
            simp [waitPairSum, List.filter_cons, hv, hact]
            ring

/-- The flow totals of one item equal the classified plausible sums over
the folded interval list, trailing open interval included. -/
theorem flowTimes_spec (tl : List (String × Int)) (now : Int) :
    (flowTimes tl now).1 = activeSumSpec tl now ∧
    (flowTimes tl now).2 = waitSumSpec tl now := by
  obtain ⟨h1, h2⟩ := flowPairs_spec tl 0 0
  unfold activeSumSpec waitSumSpec
  cases hlast : tl.getLast? with
  | none =>
    have hfold : flowTimes tl now = flowPairs tl (0, 0) := by
      unfold flowTimes
      rw [hlast]
    have hint : intervalList tl now = pairIntervals tl := by
      unfold intervalList
      rw [hlast]
      simp
    rw [hfold, hint]
    exact ⟨by simpa using h1, by simpa using h2⟩
  | some e =>
    obtain ⟨s0, t0⟩ := e
    have hint : intervalList tl now = pairIntervals tl ++ [(s0, daysBetween t0 now)] := by
      unfold intervalList
      rw [hlast]
    by_cases hd : 0 ≤ daysBetween t0 now ∧ daysBetween t0 now ≤ 365
    · have hv : validDur (s0, daysBetween t0 now) = true := by
        simp only [validDur, Bool.and_eq_true, decide_eq_true_eq]
        omega
      by_cases hact : s0 ∈ activeStates
      · have hfold : flowTimes tl now =
            ((flowPairs tl (0, 0)).1 + daysBetween t0 now, (flowPairs tl (0, 0)).2) := by
          unfold flowTimes
          rw [hlast]
          simp [hd, hact]
        rw [hfold, hint, activePairSum_append, activePairSum_single,
          waitPairSum_append, waitPairSum_single]
        dsimp only
        rw [if_pos (by simp [hv, hact]), if_neg (by simp [hact])]
        constructor
        · rw [h1]
          ring
        · rw [h2]
          ring
      · have hfold : flowTimes tl now =
            ((flowPairs tl (0, 0)).1, (flowPairs tl (0, 0)).2 + daysBetween t0 now) := by
          unfold flowTimes
          rw [hlast]
          by_cases hw : s0 ∈ waitStates <;> simp [hd, hact, hw]
        rw [hfold, hint, activePairSum_append, activePairSum_single,
          waitPairSum_append, waitPairSum_single]
        dsimp only
        rw [if_neg (by simp [hact]), if_pos (by simp [hv, hact])]
        constructor
        · rw [h1]
          ring
        · rw [h2]
          ring
    · have hv : validDur (s0, daysBetween t0 now) = false := by
        simp only [validDur, Bool.and_eq_false_iff, decide_eq_false_iff_not, not_le]
        omega
      have hfold : flowTimes tl now = flowPairs tl (0, 0) := by
        unfold flowTimes
        rw [hlast]
        simp [hd]
      rw [hfold, hint, activePairSum_append, activePairSum_single,
        waitPairSum_append, waitPairSum_single]
      rw [if_neg (by simp [hv]), if_neg (by simp [hv])]
      exact ⟨by simpa using h1, by simpa using h2⟩

/-- C6: per analyzed item, wait time accumulates the plausible durations of
every interval whose state is outside the active allowlist, unclassified
states included; and for a positive active-plus-wait split the efficiency
percentage active over total times 100 lies between 0 and 100, is exactly
0 when all accumulated time is wait, and exactly 100 when all is active. -/
theorem flow_efficiency_rule (tl : List (String × Int)) (now : Int)
    (h : 0 < (flowTimes tl now).1 + (flowTimes tl now).2) :
    (flowTimes tl now).2 = waitSumSpec tl now ∧
    (0 ≤ efficiencyPct (flowTimes tl now).1 (flowTimes tl now).2 ∧
      efficiencyPct (flowTimes tl now).1 (flowTimes tl now).2 ≤ 100) ∧
    ((flowTimes tl now).1 = 0 →
      efficiencyPct (flowTimes tl now).1 (flowTimes tl now).2 = 0) ∧
    ((flowTimes tl now).2 = 0 →
      efficiencyPct (flowTimes tl now).1 (flowTimes tl now).2 = 100) := by
  obtain ⟨hA, hW⟩ := flowTimes_spec tl now
  have hA0 : 0 ≤ (flowTimes tl now).1 := by
    rw [hA]
    exact activePairSum_nonneg _
  have hW0 : 0 ≤ (flowTimes tl now).2 := by
    rw [hW]
    exact waitPairSum_nonneg _
  set a := (flowTimes tl now).1
  set w := (flowTimes tl now).2
  have hpct : efficiencyPct a w = (a : ℚ) / ((a : ℚ) + (w : ℚ)) * 100 := by
    unfold efficiencyPct
    rw [if_pos h]
  have hden : (0 : ℚ) < (a : ℚ) + (w : ℚ) := by exact_mod_cast h
  refine ⟨hW, ⟨?_, ?_⟩, ?_, ?_⟩
  · rw [hpct]
    apply mul_nonneg _ (by norm_num)
    exact div_nonneg (by exact_mod_cast hA0) hden.le
  · rw [hpct]
    have hle : (a : ℚ) / ((a : ℚ) + (w : ℚ)) ≤ 1 := by
      rw [div_le_one hden]
      have : (0 : ℚ) ≤ (w : ℚ) := by exact_mod_cast hW0
      linarith
    calc (a : ℚ) / ((a : ℚ) + (w : ℚ)) * 100 ≤ 1 * 100 :=
        mul_le_mul_of_nonneg_right hle (by norm_num)
      _ = 100 := one_mul 100
  · intro h0
    rw [hpct, h0]
    simp
  · intro h0
    rw [hpct, h0]
    have ha0 : (0 : Int) < a := by omega
    have ha' : (a : ℚ) ≠ 0 := by
      exact_mod_cast ha0.ne'
    push_cast
    rw [add_zero, div_self ha']
    norm_num
/-- Witness for C6: the two-entry timeline with a wait state for 2 days and
an active state for 3 days has a positive split and an efficiency of 60. -/
theorem flow_efficiency_rule_witness :
    0 ≤ efficiencyPct (flowTimes c6Timeline 432000000).1 (flowTimes c6Timeline 432000000).2 ∧
    efficiencyPct (flowTimes c6Timeline 432000000).1 (flowTimes c6Timeline 432000000).2 = 60 := by
  refine ⟨(flow_efficiency_rule c6Timeline 432000000 (by decide)).2.1.1, ?_⟩
  have h1 : (flowTimes c6Timeline 432000000).1 = 3 := by decide
  have h2 : (flowTimes c6Timeline 432000000).2 = 2 := by decide
  rw [h1, h2]
  norm_num [efficiencyPct]

/-- C9: with fewer than four sprints the velocity trend is stable; with at
least four, the velocity list splits at floor(n / 2) and the trend is
increasing exactly when the second-half mean exceeds the first-half mean
times 1.1, and decreasing exactly when it is below the first-half mean
times 0.9, for non-negative velocities such as completed-item counts. -/
theorem velocity_trend_rule (vs : List ℚ) (h : ∀ v ∈ vs, 0 ≤ v) :
    (vs.length < 4 → velocityTrend vs = Trend.stable) ∧
    (velocityTrend vs = Trend.increasing ↔
      4 ≤ vs.length ∧
        listAvg (vs.drop (vs.length / 2)) > listAvg (vs.take (vs.length / 2)) * 1.1) ∧
    (velocityTrend vs = Trend.decreasing ↔
      4 ≤ vs.length ∧
        listAvg (vs.drop (vs.length / 2)) < listAvg (vs.take (vs.length / 2)) * 0.9) := by
  by_cases hlen : 4 ≤ vs.length
  · have htake : (vs.take (vs.length / 2)).length = vs.length / 2 := by
      rw [List.length_take]
      omega
    have hdrop : (vs.drop (vs.length / 2)).length = vs.length - vs.length / 2 :=
      List.length_drop _ _
    have hF : (vs.take (vs.length / 2)).sum / ((vs.length / 2 : ℕ) : ℚ) =
        listAvg (vs.take (vs.length / 2)) := by
      rw [listAvg, htake]
    have hS : (vs.drop (vs.length / 2)).sum / ((vs.length - vs.length / 2 : ℕ) : ℚ) =
        listAvg (vs.drop (vs.length / 2)) := by
      rw [listAvg, hdrop]
    have hF0 : 0 ≤ listAvg (vs.take (vs.length / 2)) := by
      apply div_nonneg
      · apply List.sum_nonneg
        intro x hx
        exact h x (List.mem_of_mem_take hx)
      · positivity
    have hvt : velocityTrend vs =
        if listAvg (vs.drop (vs.length / 2)) > listAvg (vs.take (vs.length / 2)) * 1.1
        then Trend.increasing
        else if listAvg (vs.drop (vs.length / 2)) < listAvg (vs.take (vs.length / 2)) * 0.9
        then Trend.decreasing
        else Trend.stable := by
      unfold velocityTrend
      rw [if_pos hlen]
      dsimp only
      rw [hF, hS]
    refine ⟨fun hc => absurd hlen (by omega), ?_, ?_⟩
    · constructor
      · intro he
        refine ⟨hlen, ?_⟩
        by_contra hnot
        rw [hvt, if_neg hnot] at he
        by_cases h2 : listAvg (vs.drop (vs.length / 2)) < listAvg (vs.take (vs.length / 2)) * 0.9
        · rw [if_pos h2] at he
          exact absurd he (by decide)
        · rw [if_neg h2] at he
          exact absurd he (by decide)
      · rintro ⟨-, hgt⟩
        rw [hvt, if_pos hgt]
    · constructor
      · intro he
        refine ⟨hlen, ?_⟩
        rw [hvt] at he
        by_cases h1 : listAvg (vs.drop (vs.length / 2)) > listAvg (vs.take (vs.length / 2)) * 1.1
        · rw [if_pos h1] at he
          exact absurd he (by decide)
        · rw [if_neg h1] at he
          by_cases h2 : listAvg (vs.drop (vs.length / 2)) < listAvg (vs.take (vs.length / 2)) * 0.9
          · exact h2
          · rw [if_neg h2] at he
            exact absurd he (by decide)
      · rintro ⟨-, hlt⟩
        have h1 : ¬ listAvg (vs.drop (vs.length / 2)) > listAvg (vs.take (vs.length / 2)) * 1.1 := by
          intro hgt
          have hmul : listAvg (vs.take (vs.length / 2)) * 0.9 ≤
              listAvg (vs.take (vs.length / 2)) * 1.1 :=
            mul_le_mul_of_nonneg_left (by norm_num) hF0
          linarith
        rw [hvt, if_neg h1, if_pos hlt]
  · have hstable : velocityTrend vs = Trend.stable := by
      unfold velocityTrend
      rw [if_neg hlen]
    refine ⟨fun _ => hstable, ?_, ?_⟩
    · rw [hstable]
      constructor
      · intro he
        exact absurd he (by decide)
      · rintro ⟨h4, -⟩
        exact absurd h4 hlen
    · rw [hstable]
      constructor
      · intro he
        exact absurd he (by decide)
      · rintro ⟨h4, -⟩
        exact absurd h4 hlen

/-- Witness for C9: velocities 1, 1, 3, 3 split into halves with means 1
and 3, and 3 exceeds 1 times 1.1, so the trend is increasing. -/
theorem velocity_trend_rule_witness : velocityTrend [1, 1, 3, 3] = Trend.increasing := by
  refine ((velocity_trend_rule [1, 1, 3, 3] (by norm_num)).2.1).mpr ⟨by norm_num, ?_⟩
  norm_num [listAvg]

/-- Fold characterization of the per-day set of the daily WIP metric: the
fold over the periods equals the initial set united with the ids of the
covering periods of the member. -/
theorem wipSet_eq (periods : List ActivePeriod) (m : String) (d now : Int) (init : Finset Int) :
    periods.foldl
      (fun s p => if p.assignedTo = m ∧ coversDay d now p then insert p.workItemId s else s)
      init =
      init ∪ ((coveringPeriods periods m d now).map (fun p => p.workItemId)).toFinset := by
  induction periods generalizing init with
  | nil => simp [coveringPeriods]
  | cons p rest ih =>
    by_cases hp : p.assignedTo = m ∧ coversDay d now p
    · have hfilter : coveringPeriods (p :: rest) m d now = p :: coveringPeriods rest m d now := by
        simp [coveringPeriods, List.filter_cons, hp.1, hp.2]
      rw [List.foldl_cons, if_pos hp, ih, hfilter, List.map_cons, List.toFinset_cons,
        Finset.insert_union, Finset.union_insert]
    · have hfilter : coveringPeriods (p :: rest) m d now = coveringPeriods rest m d now := by
        simp only [coveringPeriods, List.filter_cons]
        have hpred : (decide (p.assignedTo = m) && coversDay d now p) = false := by
          rw [Bool.eq_false_iff]
          intro hcontra
          simp only [Bool.and_eq_true, decide_eq_true_eq] at hcontra
          exact hp hcontra
        simp [hpred]
      rw [List.foldl_cons, if_neg hp, ih, hfilter]

/-- C7 counterexample: two active periods of the same member and the same
work item both cover day 4, so the number of covering intervals is 2, but
the reported WIP count is 1 because period ids are collapsed into a set;
the claim predicts 2 at this input. -/
theorem daily_wip_interval_count_cex :
    wipCountCode c7SameItemPeriods "A" 345600000 864000000 = 1 ∧
    (coveringPeriods c7SameItemPeriods "A" 345600000 864000000).length = 2 := by
  exact ⟨by decide, by decide⟩

/-- C7 amended: for every enumerated day of the requested range, the daily
WIP count reported for a member equals the number of distinct work items
among that member's covering active periods, a period without an end
extending through now. -/
theorem daily_wip_distinct_items (periods : List ActivePeriod) (m : String)
    (start endT now d : Int) (hd : d ∈ wipDays start endT) :
    wipCountCode periods m d now = distinctCoveringItems periods m d now := by
  unfold wipCountCode wipSetForDay distinctCoveringItems
  rw [wipSet_eq]
  simp

/-- Witness for C7 amended: items 1 and 2 of member A both have a period
covering day 4 of the requested 30-day range, so the count is 2. -/
theorem daily_wip_distinct_items_witness :
    wipCountCode c7TwoItemPeriods "A" 345600000 5184000000 = 2 := by
  rw [daily_wip_distinct_items c7TwoItemPeriods "A" 0 2592000000 5184000000 345600000
    (by decide)]
  decide

/-- The transition entries of a fully dated update list carry exactly a
sublist of its timestamps, in order, as valid dates. -/
theorem transitions_times (updates : List Update) (times : List Int)
    (ht : updates.map revTime = times.map some) :
    ∃ ts : List Int,
      (transitionsOf updates).map Prod.snd = ts.map JsDate.valid ∧ ts.Sublist times := by
  induction updates generalizing times with
  | nil =>
    cases times with
    | nil => exact ⟨[], by simp [transitionsOf], by simp⟩
    | cons t ts => simp at ht
  | cons u rest ih =>
    cases times with
    | nil => simp at ht
    | cons t ts =>
      simp only [List.map_cons, List.cons.injEq] at ht
      obtain ⟨htu, hrest⟩ := ht
      obtain ⟨ts', hts', hsub⟩ := ih ts hrest
      have hdate : u.revisedDate = DateStr.parsed t := by
        unfold revTime at htu
        cases hu : u.revisedDate with
        | missing => rw [hu] at htu; exact absurd htu (by simp)
        | unparsable s => rw [hu] at htu; exact absurd htu (by simp)
        | parsed x =>
          rw [hu] at htu
          simp at htu
          rw [htu]
      cases htr : transitionOf u with
      | none =>
        refine ⟨ts', ?_, hsub.cons t⟩
        have : transitionsOf (u :: rest) = transitionsOf rest := by
          simp [transitionsOf, List.filterMap_cons, htr]
        rw [this, hts']
      | some e =>
        have he2 : e.2 = JsDate.valid t := by
          unfold transitionOf at htr
          rw [hdate] at htr
          cases hsu : u.state with
          | none =>
            rw [hsu] at htr
            simp at htr
          | some ch =>
            rw [hsu] at htr
            dsimp only at htr
            by_cases hb : (strTruthy ch.oldValue && strTruthy ch.newValue) = true
            · rw [if_pos hb] at htr
              simp only [parseDate, Option.some.injEq] at htr
              rw [← htr]
            · rw [if_neg hb] at htr
              simp at htr
        refine ⟨t :: ts', ?_, hsub.cons₂ t⟩
        have : transitionsOf (u :: rest) = e :: transitionsOf rest := by
          simp [transitionsOf, List.filterMap_cons, htr]
        rw [this, List.map_cons, List.map_cons, hts', he2]

/-- C4 counterexample: the updates of this item, sorted by revision number,
have parsable non-decreasing timestamps, days 0 and 5, yet the produced
timeline is decreasing because the seed entry carries the creation
timestamp day 10, which the assumed event-order invariant does not bound. -/
theorem timeline_mono_cex :
    c4Updates.map revTime = [some 0, some 432000000] ∧
    List.Chain' (· ≤ ·) [(0 : Int), 432000000] ∧
    List.Chain' (fun a b : Update => a.rev ≤ b.rev) c4Updates ∧
    ¬ TimelineMono (buildStateTimeline (.parsed 864000000) c4Updates) := by
  refine ⟨by decide, by norm_num [List.chain'_cons], by norm_num [c4Updates, List.chain'_cons], ?_⟩
  intro hmono
  have hbt : buildStateTimeline (DateStr.parsed 864000000) c4Updates =
      [("New", JsDate.valid 864000000), ("Active", JsDate.valid 432000000)] := by decide
  unfold TimelineMono at hmono
  rw [hbt, List.chain'_cons] at hmono
  have hle := hmono.1
  simp only [jsDateLe, decide_eq_true_eq] at hle
  omega

/-- C4 amended: when every update of the item carries a parsable timestamp,
those timestamps are non-decreasing in revision order, and the parsed
creation timestamp does not exceed any of them, the produced timeline has
non-decreasing entry timestamps. -/
theorem timeline_mono_of_sorted (tc : Int) (updates : List Update) (times : List Int)
    (ht : updates.map revTime = times.map some)
    (hchain : times.Chain' (· ≤ ·))
    (hcreate : ∀ t ∈ times, tc ≤ t) :
    TimelineMono (buildStateTimeline (.parsed tc) updates) := by
  obtain ⟨ts, hmapeq, hsub⟩ := transitions_times updates times ht
  have hts : ts.Chain' (· ≤ ·) := hchain.sublist hsub
  have h1 : List.Chain' (fun a b : JsDate => jsDateLe a b = true) (ts.map JsDate.valid) :=
    (List.chain'_map JsDate.valid).2
      (hts.imp (fun a b hab => by simp [jsDateLe]; exact hab))
  rw [← hmapeq] at h1
  have htrans : List.Chain' (fun a b : String × JsDate => jsDateLe a.2 b.2 = true)
      (transitionsOf updates) := (List.chain'_map Prod.snd).1 h1
  unfold TimelineMono buildStateTimeline
  cases hfi : findInitial updates with
  | none =>
    have hseed : seedOf (.parsed tc) updates = [] := by
      unfold seedOf
      rw [hfi]
    rw [hseed]
    simpa using htrans
  | some sv =>
    have hseed : seedOf (.parsed tc) updates = [(sv, JsDate.valid tc)] := by
      unfold seedOf
      rw [hfi]
      rfl
    rw [hseed, List.singleton_append, List.chain'_cons']
    refine ⟨?_, htrans⟩
    intro y hy
    cases htl : transitionsOf updates with
    | nil => rw [htl] at hy; simp at hy
    | cons z zs =>
      rw [htl] at hy
      simp only [List.head?_cons, Option.mem_def, Option.some.injEq] at hy
      subst hy
      cases hts0 : ts with
      | nil =>
        rw [htl, hts0] at hmapeq
        simp at hmapeq
      | cons t0 ts0 =>
        rw [htl, hts0] at hmapeq
        simp only [List.map_cons, List.cons.injEq] at hmapeq
        have ht0 : t0 ∈ times := (hts0 ▸ hsub).subset (List.mem_cons_self t0 ts0)
        have htc : tc ≤ t0 := hcreate t0 ht0
        rw [hmapeq.1]
        simp [jsDateLe]
        exact htc

/-- Witness for C4 amended: with creation at day 0 and update timestamps at
days 0 and 5 the timeline is non-decreasing. -/
theorem timeline_mono_of_sorted_witness :
    TimelineMono (buildStateTimeline (.parsed 0) c4Updates) :=
  timeline_mono_of_sorted 0 c4Updates [0, 432000000] rfl
    (by norm_num [List.chain'_cons]) (by decide)

end Ado
